import Mathlib

set_option maxRecDepth 8000

namespace VTA

/-! Shallow embedding of `video-translation-annihilator.py`.

The data model mirrors the pydantic models `MediaFileInfo` and `MediaFile`;
stream dictionaries coming from the prober are embedded as `StreamRecord`
(the three keys the program reads: `index`, `codec_name`, `tags.language`).
External effects (filesystem existence checks, the `ffprobe` wrapper
`_read_ffmpeg_info`, the recursive glob, the pickle cache) are passed in as
explicit environments, and `find_media_files` additionally returns a
`ScanTrace` recording which effects the run performed. -/

/-- One media stream as reported by the prober: the keys the program reads
from each stream dictionary are `index`, `codec_name` and the optional
nested `tags.language` (absent when the stream carries no language tag). -/
structure StreamRecord where
  index : Nat
  codec_name : String
  language : Option String
  deriving DecidableEq

/-- Per-file probe result (`class MediaFileInfo`, source lines 19-23).
The pydantic defaults make all three stream lists empty when omitted. -/
structure MediaFileInfo where
  container : String
  audio_streams : List StreamRecord
  video_streams : List StreamRecord
  subtitle_streams : List StreamRecord
  deriving DecidableEq

/-- A discovered media file (`class MediaFile`, source lines 57-59). -/
structure MediaFile where
  path : String
  info : MediaFileInfo
  deriving DecidableEq

/-- Python `str.replace(old, new)` on character lists, for a non-empty
`old`: scan left to right, replacing every non-overlapping occurrence.
The fuel argument only bounds recursion; `fuel = s.length` always
suffices, since each step consumes at least one character. -/
def pyReplaceAux (old new : List Char) : Nat → List Char → List Char
  | _, [] => []
  | 0, c :: rest => c :: rest
  | fuel + 1, c :: rest =>
    if old.isPrefixOf (c :: rest) then
      new ++ pyReplaceAux old new fuel (List.drop (old.length - 1) rest)
    else
      c :: pyReplaceAux old new fuel rest

/-- Python `path.replace(old, new)` (used on source line 139); faithful for
the non-empty patterns the program passes (a container name). -/
def pyReplace (s old new : String) : String :=
  ⟨pyReplaceAux old.data new.data s.data.length s.data⟩

/-- Python `sep.join(parts)` (used on source line 162). -/
def pyJoin (sep : String) : List String → String
  | [] => ""
  | [x] => x
  | x :: y :: rest => x ++ sep ++ pyJoin sep (y :: rest)

/-- Python `c in s` for a single character (used on source lines 27 and
162): whether the character occurs in the string. -/
def pyHasChar (s : String) (c : Char) : Bool :=
  s.data.contains c

/-- Python `s.split(sep)` for a single-character separator (used on source
line 33): split at every occurrence, keeping empty pieces, never yielding
an empty list. -/
def pySplitChar (sep : Char) : List Char → List (List Char)
  | [] => [[]]
  | c :: rest =>
    if c = sep then
      [] :: pySplitChar sep rest
    else
      match pySplitChar sep rest with
      | [] => [[c]]
      | piece :: pieces => (c :: piece) :: pieces

/-- Python `path.split('.')[-1].lower()` (source line 33): the text after
the last dot, lower-cased. -/
def extension_of (path : String) : String :=
  ⟨((pySplitChar '.' path.data).getLastD []).map Char.toLower⟩

/-- Source line 126: a stream's resolved language is its `tags.language`
value when present, `"und"` otherwise. -/
def resolved_language (st : StreamRecord) : String :=
  st.language.getD "und"

/-- `_map_streams` (source lines 123-131): walk the audio (resp. subtitle)
stream list of the file and collect the `index` of every stream whose
resolved language is neither `"und"` nor a member of `languages`.
The `info(...)` log line has no effect on the returned value. -/
def map_streams (media_file : MediaFile) (stream : String)
    (languages : List String) : List Nat :=
  (if stream = "audio" then media_file.info.audio_streams
   else media_file.info.subtitle_streams).filterMap fun st =>
    if ¬ resolved_language st = "und" ∧ resolved_language st ∉ languages then
      some st.index
    else
      none

/-- The two `_map_streams` calls of `process_media_files`
(source lines 145-153): audio drop indices paired with subtitle drop
indices. This is the spec's `selectDrops`. -/
def selectDrops (media_file : MediaFile) (languages : List String) :
    List Nat × List Nat :=
  (map_streams media_file "audio" languages,
   map_streams media_file "subtitle" languages)

/-- `_gen_cmdline` (source lines 133-141): the ffmpeg token list, built by
appending one `-0:a:<id>` token per audio drop id, then one `-0:s:<id>`
token per subtitle drop id, then the codec-copy flags and the output path
obtained by `path.replace(container, 'cleaned.' + container)`. -/
def gen_cmdline (media_file : MediaFile) (audio_stream_ids : List Nat)
    (subtitle_stream_ids : List Nat) : List String :=
  let cmd := ["ffmpeg", "-i", media_file.path, "-map", "0", "-map"]
  let cmd := audio_stream_ids.foldl
    (fun c audio_stream_id => c ++ ["-0:a:" ++ toString audio_stream_id]) cmd
  let cmd := subtitle_stream_ids.foldl
    (fun c subtitle_stream_id => c ++ ["-0:s:" ++ toString subtitle_stream_id]) cmd
  cmd ++ ["-c", "copy",
    pyReplace media_file.path media_file.info.container
      ("cleaned." ++ media_file.info.container)]

/-- The quoting applied to each command token on source line 162: wrap the
token in double quotes exactly when it contains a space character. -/
def quoteArg (arg : String) : String :=
  if pyHasChar arg ' ' then "\"" ++ arg ++ "\"" else arg

/-- `process_media_files` (source lines 122-165): starting from the
interpreter header, append for each media file an echo line and the
space-joined, selectively quoted command line, each entry terminated by a
blank line. This is the spec's `buildScript`. -/
def process_media_files (media_files : List MediaFile)
    (languages : List String) : String :=
  media_files.foldl
    (fun script media_file =>
      let audio_stream_ids := map_streams media_file "audio" languages
      let subtitle_stream_ids := map_streams media_file "subtitle" languages
      let cmdline := gen_cmdline media_file audio_stream_ids subtitle_stream_ids
      script ++ "echo \"Processing " ++ media_file.path ++ "...\"\n"
        ++ pyJoin " " (cmdline.map quoteArg) ++ "\n\n")
    "#!/bin/bash\n\n"

/-- The external collaborators `MediaFileInfo.from_path` consults:
`os.path.exists` and the `ffprobe` wrapper `_read_ffmpeg_info` (which
either returns the `(audio, video, subtitle)` stream triple or raises). -/
structure FileEnv where
  file_exists : String → Bool
  probe : String → Except String (List StreamRecord × List StreamRecord × List StreamRecord)

/-- `MediaFileInfo.from_path` (source lines 25-43), instrumented: the first
component is the returned info or the raised error; the second component
records whether `_read_ffmpeg_info` (the prober) was invoked. -/
def MediaFileInfo.from_path (fs : FileEnv) (path : String) :
    Except String MediaFileInfo × Bool :=
  if ¬ pyHasChar path '.' then
    (Except.error ("Cannot detect a container in path " ++ path), false)
  else if ¬ fs.file_exists path then
    (Except.error ("Cannot find media in path " ++ path), false)
  else
    let container := extension_of path
    if container ∉ ["mkv", "mp4", "avi"] then
      (Except.ok ⟨"unknown", [], [], []⟩, false)
    else
      match fs.probe path with
      | Except.error e => (Except.error e, true)
      | Except.ok (a, v, s) => (Except.ok ⟨container, a, v, s⟩, true)

/-- `MediaFile.from_path` (source lines 61-66): pair the path with its
probe result; exceptions propagate. -/
def MediaFile.from_path (fs : FileEnv) (path : String) :
    Except String MediaFile :=
  match (MediaFileInfo.from_path fs path).1 with
  | Except.ok i => Except.ok ⟨path, i⟩
  | Except.error e => Except.error e

/-- Whether `MediaFile.from_path` raises for this path (the condition the
`except` clause on source lines 112-113 catches). -/
def probe_fails (fs : FileEnv) (path : String) : Bool :=
  match MediaFile.from_path fs path with
  | Except.ok _ => false
  | Except.error _ => true

/-- The probing loop of `find_media_files` (source lines 109-113): each
enumerated file is probed inside `try`; on success the `MediaFile` is
appended, on any exception the error is logged and the file is skipped. -/
def scan_files (fs : FileEnv) (files : List String) : List MediaFile :=
  files.filterMap fun p =>
    match MediaFile.from_path fs p with
    | Except.ok mf => some mf
    | Except.error _ => none

/-- The environment `find_media_files` runs against: whether
`media.pickle` exists, its deserialized contents when read, the ordered
file list the recursive glob of source lines 104-106 enumerates, and the
per-file probing environment. -/
structure ScanEnv where
  cache_exists : Bool
  cache_contents : List MediaFile
  walk : List String
  fs : FileEnv

/-- The effects a `find_media_files` run performs: whether the filesystem
walk ran, which paths were probed, and whether a new snapshot was written. -/
structure ScanTrace where
  walked : Bool
  probed : List String
  wrote_cache : Bool
  deriving DecidableEq

/-- `find_media_files` (source lines 96-119): when `media.pickle` exists
and `cached` is set, return the unpickled list (no walk, no probe, no
write); otherwise walk, probe every enumerated file, skip failures, and
persist the new snapshot. The second component records the effects. -/
def find_media_files (env : ScanEnv) (cached : Bool) :
    List MediaFile × ScanTrace :=
  if env.cache_exists && cached then
    (env.cache_contents, ⟨false, [], false⟩)
  else
    (scan_files env.fs env.walk, ⟨true, env.walk, true⟩)

/-- The drop criterion of source line 127 as a boolean predicate on a
stream record: resolved language differs from `"und"` and is not in the
allow-list. -/
def drop_pred (languages : List String) (st : StreamRecord) : Bool :=
  decide (¬ resolved_language st = "und" ∧ resolved_language st ∉ languages)

/-- Written from the claim wording for the output path: replace only the
FIRST occurrence of `old` (as a character list) by `new`, leaving the rest
of the text unchanged. -/
def spec_replace_first_aux (old new : List Char) : List Char → List Char
  | [] => []
  | c :: rest =>
    if old.isPrefixOf (c :: rest) then
      new ++ List.drop (old.length - 1) rest
    else
      c :: spec_replace_first_aux old new rest

/-- Written from the claim wording: the input string with the first
occurrence of `old` replaced by `new`. -/
def spec_replace_first (s old new : String) : String :=
  ⟨spec_replace_first_aux old.data new.data s.data⟩

/-- The number of positions of `s` at which `old` starts as a substring. -/
def countOcc (old : List Char) : List Char → Nat
  | [] => 0
  | c :: rest => (if old.isPrefixOf (c :: rest) then 1 else 0) + countOcc old rest

/-- Whether `needle` occurs as a contiguous substring of the haystack. -/
def hasSub (needle : List Char) : List Char → Bool
  | [] => needle.isEmpty
  | c :: rest => needle.isPrefixOf (c :: rest) || hasSub needle rest

/-- One per-file entry of the generated script: the echo line followed by
the space-joined, selectively quoted command line. -/
def script_entry (languages : List String) (media_file : MediaFile) : String :=
  "echo \"Processing " ++ media_file.path ++ "...\"\n"
    ++ pyJoin " "
      ((gen_cmdline media_file
          (map_streams media_file "audio" languages)
          (map_streams media_file "subtitle" languages)).map quoteArg)

/-- The concatenation of per-file script entries, each closed by the blank
line `process_media_files` appends after every command. -/
def script_blocks (languages : List String) : List MediaFile → String
  | [] => ""
  | mf :: rest => script_entry languages mf ++ "\n\n" ++ script_blocks languages rest

/-! Helper lemmas. -/

lemma foldl_append_map {α β : Type} (f : α → β) :
    ∀ (l : List α) (init : List β),
      l.foldl (fun c i => c ++ [f i]) init = init ++ l.map f := by
  intro l
  induction l with
  | nil => intro init; simp
  | cons x xs ih => intro init; simp [ih]

lemma gen_cmdline_eq (mf : MediaFile) (audio subs : List Nat) :
    gen_cmdline mf audio subs =
      ["ffmpeg", "-i", mf.path, "-map", "0", "-map"]
        ++ audio.map (fun i => "-0:a:" ++ toString i)
        ++ subs.map (fun i => "-0:s:" ++ toString i)
        ++ ["-c", "copy",
            pyReplace mf.path mf.info.container
              ("cleaned." ++ mf.info.container)] := by
  simp [gen_cmdline, foldl_append_map]

lemma map_streams_eq_filter (l : List StreamRecord) (languages : List String) :
    (l.filterMap fun st =>
        if ¬ resolved_language st = "und" ∧ resolved_language st ∉ languages then
          some st.index
        else none)
      = (l.filter (drop_pred languages)).map StreamRecord.index := by
  induction l with
  | nil => rfl
  | cons st rest ih =>
    by_cases h : ¬ resolved_language st = "und" ∧ resolved_language st ∉ languages
    · simp [List.filterMap_cons, List.filter_cons, drop_pred, h, ih]
    · simp [List.filterMap_cons, List.filter_cons, drop_pred, h, ih]

lemma from_path_ok_path (fs : FileEnv) (p : String) (mf : MediaFile)
    (h : MediaFile.from_path fs p = Except.ok mf) : mf.path = p := by
  unfold MediaFile.from_path at h
  cases hinfo : (MediaFileInfo.from_path fs p).1 with
  | ok i => rw [hinfo] at h; simp at h; rw [← h]
  | error e => rw [hinfo] at h; simp at h

lemma scan_files_length (fs : FileEnv) :
    ∀ files : List String,
      (scan_files fs files).length + files.countP (probe_fails fs)
        = files.length := by
  intro files
  induction files with
  | nil => rfl
  | cons p rest ih =>
    cases hfp : MediaFile.from_path fs p with
    | ok mf =>
      simp only [scan_files, List.filterMap_cons, hfp, List.countP_cons,
        probe_fails] at ih ⊢
      simp [hfp]
      omega
    | error e =>
      simp only [scan_files, List.filterMap_cons, hfp, List.countP_cons,
        probe_fails] at ih ⊢
      simp [hfp]
      omega

lemma countOcc_drop_le (old : List Char) :
    ∀ (k : Nat) (s : List Char), countOcc old (s.drop k) ≤ countOcc old s := by
  intro k
  induction k with
  | zero => intro s; simp
  | succ n ih =>
    intro s
    cases s with
    | nil => simp
    | cons c rest =>
      simp only [List.drop_succ_cons]
      calc countOcc old (rest.drop n) ≤ countOcc old rest := ih rest
        _ ≤ countOcc old (c :: rest) := by
            simp only [countOcc]; exact Nat.le_add_left _ _

lemma pyReplaceAux_no_occ (old new : List Char) :
    ∀ (fuel : Nat) (s : List Char),
      countOcc old s = 0 → pyReplaceAux old new fuel s = s := by
  intro fuel
  induction fuel with
  | zero => intro s h; cases s <;> rfl
  | succ n ih =>
    intro s h
    cases s with
    | nil => rfl
    | cons c rest =>
      cases hp : old.isPrefixOf (c :: rest) with
      | true => exfalso; simp [countOcc, hp] at h
      | false =>
        have hr : countOcc old rest = 0 := by simpa [countOcc, hp] using h
        simp [pyReplaceAux, hp, ih rest hr]

lemma pyReplaceAux_eq_spec (old new : List Char) :
    ∀ (fuel : Nat) (s : List Char), s.length ≤ fuel → countOcc old s ≤ 1 →
      pyReplaceAux old new fuel s = spec_replace_first_aux old new s := by
  intro fuel
  induction fuel with
  | zero =>
    intro s hlen _
    have hnil : s = [] := List.length_eq_zero.mp (Nat.le_zero.mp hlen)
    subst hnil; rfl
  | succ n ih =>
    intro s hlen hocc
    cases s with
    | nil => rfl
    | cons c rest =>
      cases hp : old.isPrefixOf (c :: rest) with
      | true =>
        have hocc1 : countOcc old rest = 0 := by
          simp only [countOcc, hp, if_true] at hocc; omega
        have hdrop : countOcc old (rest.drop (old.length - 1)) = 0 :=
          Nat.le_zero.mp (hocc1 ▸ countOcc_drop_le old (old.length - 1) rest)
        simp [pyReplaceAux, spec_replace_first_aux, hp,
          pyReplaceAux_no_occ old new n _ hdrop]
      | false =>
        have hlen' : rest.length ≤ n := by
          simp only [List.length_cons] at hlen; omega
        have hocc' : countOcc old rest ≤ 1 := by
          simpa [countOcc, hp] using hocc
        simp [pyReplaceAux, spec_replace_first_aux, hp, ih rest hlen' hocc']

lemma pyReplace_eq_spec_replace_first (s old new : String)
    (h : countOcc old.data s.data ≤ 1) :
    pyReplace s old new = spec_replace_first s old new :=
  String.ext
    (pyReplaceAux_eq_spec old.data new.data s.data.length s.data
      (Nat.le_refl _) h)

lemma foldl_script_acc (languages : List String) :
    ∀ (mfs : List MediaFile) (acc : String),
      mfs.foldl
        (fun script media_file =>
          let audio_stream_ids := map_streams media_file "audio" languages
          let subtitle_stream_ids := map_streams media_file "subtitle" languages
          let cmdline := gen_cmdline media_file audio_stream_ids subtitle_stream_ids
          script ++ "echo \"Processing " ++ media_file.path ++ "...\"\n"
            ++ pyJoin " " (cmdline.map quoteArg) ++ "\n\n") acc
      = acc ++ script_blocks languages mfs := by
  intro mfs
  induction mfs with
  | nil => intro acc; simp [script_blocks]
  | cons mf rest ih =>
    intro acc
    simp only [List.foldl_cons, script_blocks]
    rw [ih]
    simp [script_entry, String.append_assoc]

lemma process_eq_blocks (mfs : List MediaFile) (languages : List String) :
    process_media_files mfs languages
      = "#!/bin/bash\n\n" ++ script_blocks languages mfs := by
  unfold process_media_files
  exact foldl_script_acc languages mfs "#!/bin/bash\n\n"

lemma blocks_pyJoin (languages : List String) :
    ∀ (mfs : List MediaFile) (x : String),
      x ++ "\n\n" ++ script_blocks languages mfs
        = pyJoin "\n\n" (x :: mfs.map (script_entry languages)) ++ "\n\n" := by
  intro mfs
  induction mfs with
  | nil => intro x; simp [script_blocks, pyJoin]
  | cons mf rest ih =>
    intro x
    simp only [script_blocks, List.map_cons]
    have harm : pyJoin "\n\n" (x :: script_entry languages mf :: rest.map (script_entry languages))
        = x ++ "\n\n" ++ pyJoin "\n\n" (script_entry languages mf :: rest.map (script_entry languages)) := rfl
    rw [ih (script_entry languages mf), harm]
    simp [String.append_assoc]

/-! Claim theorems. -/

/-- C1: for every media file and allow-list, `selectDrops` marks an audio
or subtitle stream for drop iff its resolved language (the stream's tag,
`"und"` when absent) is not `"und"` and is not a member of the allow-list,
by case-sensitive string equality; the drop lists are exactly the indices
of the streams satisfying that criterion, in stream order, and a stream
whose resolved language is `"und"` never satisfies the drop criterion for
any allow-list, the empty one included. -/
theorem selectDrops_drop_iff (mf : MediaFile) (languages : List String) :
    ((selectDrops mf languages).1
        = (mf.info.audio_streams.filter (drop_pred languages)).map StreamRecord.index
      ∧ (selectDrops mf languages).2
        = (mf.info.subtitle_streams.filter (drop_pred languages)).map StreamRecord.index)
    ∧ ∀ (st : StreamRecord) (langs2 : List String),
        resolved_language st = "und" → drop_pred langs2 st = false := by
  refine ⟨⟨?_, ?_⟩, ?_⟩
  · simp only [selectDrops, map_streams, if_pos rfl]
    exact map_streams_eq_filter _ _
  · simp only [selectDrops, map_streams, if_neg (by decide : ¬ ("subtitle" : String) = "audio")]
    exact map_streams_eq_filter _ _
  · intro st langs2 h
    simp [drop_pred, h]

/-- C1 witness: a concrete file whose only audio stream is `"eng"` under
allow-list `["jpn"]`, and an untagged stream is never drop-eligible. -/
theorem selectDrops_drop_iff_witness :
    (selectDrops ⟨"a.mkv", ⟨"mkv", [⟨0, "aac", some "eng"⟩], [], []⟩⟩ ["jpn"]).1
        = (((⟨"a.mkv", ⟨"mkv", [⟨0, "aac", some "eng"⟩], [], []⟩⟩ : MediaFile)).info.audio_streams.filter
            (drop_pred ["jpn"])).map StreamRecord.index
      ∧ drop_pred ["jpn"] ⟨0, "aac", none⟩ = false :=
  ⟨(selectDrops_drop_iff ⟨"a.mkv", ⟨"mkv", [⟨0, "aac", some "eng"⟩], [], []⟩⟩ ["jpn"]).1.1,
   (selectDrops_drop_iff ⟨"a.mkv", ⟨"mkv", [], [], []⟩⟩ ["jpn"]).2 ⟨0, "aac", none⟩ ["jpn"] rfl⟩

/-- C2: for `movie.mkv` with audio `[{0, jpn}, {1, eng}]`, subtitles
`[{0, eng}]` and allow-list `{"jpn"}`, `selectDrops` yields audio drops
`[1]` and subtitle drops `[0]`, and the generated command contains the
tokens `-0:a:1` and `-0:s:0` and the output path `movie.cleaned.mkv`. -/
theorem movie_scenario :
    selectDrops ⟨"movie.mkv", ⟨"mkv",
        [⟨0, "aac", some "jpn"⟩, ⟨1, "ac3", some "eng"⟩], [],
        [⟨0, "subrip", some "eng"⟩]⟩⟩ ["jpn"] = ([1], [0])
    ∧ gen_cmdline ⟨"movie.mkv", ⟨"mkv",
        [⟨0, "aac", some "jpn"⟩, ⟨1, "ac3", some "eng"⟩], [],
        [⟨0, "subrip", some "eng"⟩]⟩⟩ [1] [0]
      = ["ffmpeg", "-i", "movie.mkv", "-map", "0", "-map", "-0:a:1", "-0:s:0",
          "-c", "copy", "movie.cleaned.mkv"]
    ∧ "-0:a:1" ∈ gen_cmdline ⟨"movie.mkv", ⟨"mkv",
        [⟨0, "aac", some "jpn"⟩, ⟨1, "ac3", some "eng"⟩], [],
        [⟨0, "subrip", some "eng"⟩]⟩⟩ [1] [0]
    ∧ "-0:s:0" ∈ gen_cmdline ⟨"movie.mkv", ⟨"mkv",
        [⟨0, "aac", some "jpn"⟩, ⟨1, "ac3", some "eng"⟩], [],
        [⟨0, "subrip", some "eng"⟩]⟩⟩ [1] [0]
    ∧ "movie.cleaned.mkv" ∈ gen_cmdline ⟨"movie.mkv", ⟨"mkv",
        [⟨0, "aac", some "jpn"⟩, ⟨1, "ac3", some "eng"⟩], [],
        [⟨0, "subrip", some "eng"⟩]⟩⟩ [1] [0] := by
  refine ⟨by decide, by decide, by decide, by decide, by decide⟩

/-- C3: for every media file and every pair of drop lists, the command is
exactly `ffmpeg -i <input> -map 0 -map`, then one `-0:a:<index>` token per
audio drop index in drop-list order, then one `-0:s:<index>` token per
subtitle drop index in drop-list order, then `-c copy <output>` — one
exclusion token per dropped stream, never a count. -/
theorem gen_cmdline_tokens (mf : MediaFile) (audio subs : List Nat) :
    gen_cmdline mf audio subs =
      ["ffmpeg", "-i", mf.path, "-map", "0", "-map"]
        ++ audio.map (fun i => "-0:a:" ++ toString i)
        ++ subs.map (fun i => "-0:s:" ++ toString i)
        ++ ["-c", "copy",
            pyReplace mf.path mf.info.container
              ("cleaned." ++ mf.info.container)] :=
  gen_cmdline_eq mf audio subs

/-- C4 counterexample: for input path `mkv/movie.mkv` with container
`mkv`, the code replaces EVERY occurrence of the container substring, so
the emitted output path is `cleaned.mkv/movie.cleaned.mkv`, not the
first-occurrence-only replacement `cleaned.mkv/movie.mkv` the claim
describes. -/
theorem output_path_first_occurrence_cex :
    gen_cmdline ⟨"mkv/movie.mkv", ⟨"mkv", [], [], []⟩⟩ [] []
        = ["ffmpeg", "-i", "mkv/movie.mkv", "-map", "0", "-map", "-c", "copy",
            "cleaned.mkv/movie.cleaned.mkv"]
      ∧ spec_replace_first "mkv/movie.mkv" "mkv" "cleaned.mkv"
          = "cleaned.mkv/movie.mkv"
      ∧ ¬ ("cleaned.mkv/movie.cleaned.mkv" : String) = "cleaned.mkv/movie.mkv" := by
  refine ⟨by decide, by decide, by decide⟩

/-- C4 amended: for every media file whose path contains at most one
occurrence of its container substring, the output path (the last token of
the generated command) is the input path with that first occurrence
replaced by `cleaned.<container>`; when the container occurs more than
once every occurrence is replaced (see the counterexample). -/
theorem output_path_replaces_unique_occurrence (mf : MediaFile)
    (audio subs : List Nat)
    (h : countOcc mf.info.container.data mf.path.data ≤ 1) :
    (gen_cmdline mf audio subs).getLast?
      = some (spec_replace_first mf.path mf.info.container
          ("cleaned." ++ mf.info.container)) := by
  have h1 : gen_cmdline mf audio subs
      = (["ffmpeg", "-i", mf.path, "-map", "0", "-map"]
          ++ audio.map (fun i => "-0:a:" ++ toString i)
          ++ subs.map (fun i => "-0:s:" ++ toString i)
          ++ ["-c", "copy"])
        ++ [pyReplace mf.path mf.info.container ("cleaned." ++ mf.info.container)] := by
    rw [gen_cmdline_eq]
    simp [List.append_assoc]
  rw [h1, List.getLast?_concat, pyReplace_eq_spec_replace_first _ _ _ h]

/-- C4 witness: `movie.mkv` contains `mkv` once; the output path is the
first-occurrence replacement `movie.cleaned.mkv`. -/
theorem output_path_replaces_unique_occurrence_witness :
    (gen_cmdline ⟨"movie.mkv", ⟨"mkv", [], [], []⟩⟩ [] []).getLast?
        = some (spec_replace_first "movie.mkv" "mkv" "cleaned.mkv")
      ∧ spec_replace_first "movie.mkv" "mkv" "cleaned.mkv" = "movie.cleaned.mkv" :=
  ⟨output_path_replaces_unique_occurrence ⟨"movie.mkv", ⟨"mkv", [], [], []⟩⟩ [] []
      (by decide),
   by decide⟩

/-- C5: when probing raises for exactly one of the enumerated files, the
fresh scan completes (it is a total function), the failing file is absent
from the result, and the result has exactly N-1 entries. -/
theorem scan_skips_failing_file (env : ScanEnv)
    (h : env.walk.countP (probe_fails env.fs) = 1) :
    (find_media_files env false).1.length = env.walk.length - 1
    ∧ ∀ p ∈ env.walk, probe_fails env.fs p = true →
        ∀ mf ∈ (find_media_files env false).1, ¬ mf.path = p := by
  have hmain : (find_media_files env false).1 = scan_files env.fs env.walk := by
    simp [find_media_files]
  constructor
  · rw [hmain]
    have := scan_files_length env.fs env.walk
    omega
  · intro p hp hfail mf hmf hpath
    rw [hmain] at hmf
    simp only [scan_files] at hmf
    obtain ⟨q, hq, hq2⟩ := List.mem_filterMap.mp hmf
    cases hfq : MediaFile.from_path env.fs q with
    | ok m =>
      rw [hfq] at hq2
      simp only [Option.some.injEq] at hq2
      have hqp : m.path = q := from_path_ok_path env.fs q m hfq
      rw [hq2] at hqp
      rw [hpath] at hqp
      rw [← hqp] at hfq
      simp [probe_fails, hfq] at hfail
    | error e =>
      rw [hfq] at hq2
      simp at hq2

/-- C5 witness: two enumerated files of which probing fails for exactly
one; the resulting inventory has one entry. -/
theorem scan_skips_failing_file_witness :
    (find_media_files
        ⟨false, [], ["a.mkv", "b.mkv"],
          ⟨fun _ => true,
           fun p => if p = "a.mkv" then Except.ok ([], [], [])
                    else Except.error "probe failed"⟩⟩ false).1.length
      = (["a.mkv", "b.mkv"] : List String).length - 1 :=
  (scan_skips_failing_file
      ⟨false, [], ["a.mkv", "b.mkv"],
        ⟨fun _ => true,
         fun p => if p = "a.mkv" then Except.ok ([], [], [])
                  else Except.error "probe failed"⟩⟩ (by decide)).1

/-- C6: with `cached` set and the snapshot present, the scan returns the
deserialized snapshot unchanged and performs no walk, no probe invocation
and no snapshot write. -/
theorem cached_scan_returns_snapshot (env : ScanEnv)
    (h : env.cache_exists = true) :
    find_media_files env true = (env.cache_contents, ⟨false, [], false⟩) := by
  simp [find_media_files, h]

/-- C6 witness: a concrete environment with a one-entry snapshot. -/
theorem cached_scan_returns_snapshot_witness :
    find_media_files
        ⟨true, [⟨"a.mkv", ⟨"mkv", [], [], []⟩⟩], ["b.mkv"],
          ⟨fun _ => true, fun _ => Except.error "never"⟩⟩ true
      = ([⟨"a.mkv", ⟨"mkv", [], [], []⟩⟩], ⟨false, [], false⟩) :=
  cached_scan_returns_snapshot
    ⟨true, [⟨"a.mkv", ⟨"mkv", [], [], []⟩⟩], ["b.mkv"],
      ⟨fun _ => true, fun _ => Except.error "never"⟩⟩ rfl

/-- C7: every `MediaFileInfo` built by `from_path` with container
`"unknown"` has all three stream lists empty, and for a path whose
lower-cased final extension is not `mkv`, `mp4` or `avi` the prober is
never invoked. -/
theorem unknown_container_streams_empty (fs : FileEnv) (path : String) :
    (∀ i : MediaFileInfo,
        (MediaFileInfo.from_path fs path).1 = Except.ok i →
        i.container = "unknown" →
        i.audio_streams = [] ∧ i.video_streams = [] ∧ i.subtitle_streams = [])
    ∧ (extension_of path ∉ ["mkv", "mp4", "avi"] →
        (MediaFileInfo.from_path fs path).2 = false) := by
  by_cases h1 : pyHasChar path '.'
  · by_cases h2 : fs.file_exists path
    · by_cases h3 : extension_of path ∈ ["mkv", "mp4", "avi"]
      · constructor
        · intro i hok hcont
          cases hp : fs.probe path with
          | error e => simp [MediaFileInfo.from_path, h1, h2, h3, hp] at hok
          | ok t =>
            obtain ⟨a, rest⟩ := t
            obtain ⟨v, s⟩ := rest
            simp [MediaFileInfo.from_path, h1, h2, h3, hp] at hok
            rw [← hok] at hcont
            have hx : extension_of path = "unknown" := hcont
            rw [hx] at h3
            exact absurd h3 (by decide)
        · intro hnot
          exact absurd h3 hnot
      · constructor
        · intro i hok hcont
          simp [MediaFileInfo.from_path, h1, h2, h3] at hok
          rw [← hok]
          exact ⟨rfl, rfl, rfl⟩
        · intro _
          simp [MediaFileInfo.from_path, h1, h2, h3]
    · constructor
      · intro i hok _
        simp [MediaFileInfo.from_path, h1, h2] at hok
      · intro _
        simp [MediaFileInfo.from_path, h1, h2]
  · constructor
    · intro i hok _
      simp [MediaFileInfo.from_path, h1] at hok
    · intro _
      simp [MediaFileInfo.from_path, h1]

/-- C7 witness: `movie.txt` exists but has an unrecognized extension: the
result is the `unknown` info with empty stream lists, and the prober is
not invoked. -/
theorem unknown_container_streams_empty_witness :
    ((⟨"unknown", [], [], []⟩ : MediaFileInfo).audio_streams = []
      ∧ (⟨"unknown", [], [], []⟩ : MediaFileInfo).video_streams = []
      ∧ (⟨"unknown", [], [], []⟩ : MediaFileInfo).subtitle_streams = [])
    ∧ (MediaFileInfo.from_path
        ⟨fun _ => true, fun _ => Except.ok ([], [], [])⟩ "movie.txt").2 = false :=
  ⟨(unknown_container_streams_empty
      ⟨fun _ => true, fun _ => Except.ok ([], [], [])⟩ "movie.txt").1
      ⟨"unknown", [], [], []⟩ rfl rfl,
   (unknown_container_streams_empty
      ⟨fun _ => true, fun _ => Except.ok ([], [], [])⟩ "movie.txt").2 (by decide)⟩

/-- C8 counterexample: the token `a\tb.mkv` contains whitespace (a tab)
but is emitted UNQUOTED: the script equals the displayed text, the quoted
form of the token occurs nowhere in it, while the bare token does. The
code only quotes on a space character, not on arbitrary whitespace. -/
theorem script_quoting_whitespace_cex :
    process_media_files [⟨"a\tb.mkv", ⟨"mkv", [], [], []⟩⟩] ["eng"]
        = "#!/bin/bash\n\necho \"Processing a\tb.mkv...\"\nffmpeg -i a\tb.mkv -map 0 -map -c copy a\tb.cleaned.mkv\n\n"
      ∧ Char.isWhitespace '\t' = true
      ∧ pyHasChar "a\tb.mkv" '\t' = true
      ∧ quoteArg "a\tb.mkv" = "a\tb.mkv"
      ∧ hasSub "\"a\tb.mkv\"".data
          "#!/bin/bash\n\necho \"Processing a\tb.mkv...\"\nffmpeg -i a\tb.mkv -map 0 -map -c copy a\tb.cleaned.mkv\n\n".data
        = false
      ∧ hasSub "a\tb.mkv".data
          "#!/bin/bash\n\necho \"Processing a\tb.mkv...\"\nffmpeg -i a\tb.mkv -map 0 -map -c copy a\tb.cleaned.mkv\n\n".data
        = true := by
  refine ⟨by decide, by decide, by decide, by decide, by decide, by decide⟩

/-- C8 amended: the script text is the header line `#!/bin/bash` followed,
for each file in inventory order, by an entry of an echo line naming the
file and the command line, consecutive pieces separated by a blank line
and a final blank line closing the text; tokens are individually wrapped
in double quotes exactly when they contain a space character (U+0020) —
other whitespace does not trigger quoting. -/
theorem script_layout_space_quoting (mfs : List MediaFile) (langs : List String) :
    process_media_files mfs langs
      = pyJoin "\n\n" ("#!/bin/bash" :: mfs.map (script_entry langs)) ++ "\n\n"
    ∧ ∀ arg : String,
        quoteArg arg = if pyHasChar arg ' ' then "\"" ++ arg ++ "\"" else arg := by
  constructor
  · rw [process_eq_blocks]
    have hb := blocks_pyJoin langs mfs "#!/bin/bash"
    have hh : ("#!/bin/bash\n\n" : String) = "#!/bin/bash" ++ "\n\n" := by decide
    rw [hh]
    exact hb
  · intro arg
    rfl

/-- C9: `process_media_files` is deterministic — equal inventories and
equal allow-lists produce byte-identical script text. -/
theorem process_media_files_deterministic (mfs1 mfs2 : List MediaFile)
    (langs1 langs2 : List String) (h1 : mfs1 = mfs2) (h2 : langs1 = langs2) :
    process_media_files mfs1 langs1 = process_media_files mfs2 langs2 := by
  rw [h1, h2]

/-- C9 witness: two calls on the same concrete inventory and allow-list. -/
theorem process_media_files_deterministic_witness :
    process_media_files [⟨"a.mkv", ⟨"mkv", [], [], []⟩⟩] ["eng"]
      = process_media_files [⟨"a.mkv", ⟨"mkv", [], [], []⟩⟩] ["eng"] :=
  process_media_files_deterministic
    [⟨"a.mkv", ⟨"mkv", [], [], []⟩⟩] [⟨"a.mkv", ⟨"mkv", [], [], []⟩⟩]
    ["eng"] ["eng"] rfl rfl

/-- C10: with `cached` set but no snapshot on disk, the scan does not
fail: it behaves exactly as a fresh scan — same result and the same
effects (a walk, a probe of every enumerated file, a snapshot write). -/
theorem missing_cache_falls_back_to_walk (env : ScanEnv)
    (h : env.cache_exists = false) :
    find_media_files env true = find_media_files env false
    ∧ (find_media_files env true).2 = ⟨true, env.walk, true⟩ := by
  constructor <;> simp [find_media_files, h]

/-- C10 witness: a concrete cache-less environment. -/
theorem missing_cache_falls_back_to_walk_witness :
    find_media_files
        ⟨false, [], ["a.mkv"], ⟨fun _ => true, fun _ => Except.ok ([], [], [])⟩⟩ true
      = find_media_files
        ⟨false, [], ["a.mkv"], ⟨fun _ => true, fun _ => Except.ok ([], [], [])⟩⟩ false :=
  (missing_cache_falls_back_to_walk
    ⟨false, [], ["a.mkv"], ⟨fun _ => true, fun _ => Except.ok ([], [], [])⟩⟩ rfl).1

end VTA
